import Mathlib

/-!
# A verification development for the `conda-docker` image builder

This file gives a shallow embedding, in Lean 4, of the core data model and
algorithms of the `conda-docker` repository, and proves (or refutes) the
frozen claims about its specification.

The embedding follows the Python sources:

* `conda_docker/docker/base.py` — the `Layer`/`Image` classes and the
  append-only layer construction `Image._add_layer`;
* `conda_docker/docker/tar.py` — the v1 image-tar codec
  (`parse_v1`, `write_v1`, `write_v1_layer_metadata`,
  `write_v1_repositories`, and the tar writers);
* `conda_docker/conda.py` — `conda_file_filter`, `get_final_url`,
  `get_dist_name`, `fetch_precs`, `write_urls`, `write_repodata_records`,
  `_paths_from_record`, `add_conda_package_layers`, `add_conda_layers`,
  `build_docker_environment`;
* `conda_docker/download.py` — `download`;
* `conda_docker/utils.py` — `md5_files`.

Conventions of the embedding:

* Python byte strings are `List Nat`; Python text strings are `String`
  (with helper functions over `String.data` so that everything reduces in
  the kernel);
* Python `None` is `Option.none`; fallible code returns `Except` or
  `Option` values, with an explicit error describing the raised exception;
* external effects are passed explicitly: a filesystem is a lookup
  function (or an association list), an HTTP server is a function from
  URL to optional response, the MD5/SHA-256 digests are parameters
  (`md5Hex`, `sha256Hex`) since `hashlib` is an external library, and the
  sources of nondeterminism (`secrets.token_hex`, `datetime.now`) are
  explicit arguments.
-/

namespace CondaDocker

/-! ## String helpers mirroring Python `str` and `posixpath` operations

All helpers work on `String.data` with structural recursion so that
concrete instances evaluate by `rfl`/`decide` in the kernel.
-/

/-- `s.startswith p` on character lists. -/
def strStarts (p s : String) : Bool :=
  p.data.isPrefixOf s.data

/-- `s.endswith p` on character lists. -/
def strEnds (p s : String) : Bool :=
  p.data.reverse.isPrefixOf s.data.reverse

/-- Python slicing `s[n:]` (drop the first `n` characters). -/
def strDrop (s : String) (n : Nat) : String :=
  ⟨s.data.drop n⟩

/-- Python slicing `s[:len(s)-n]` (drop the last `n` characters),
as in `fn[:-8]`. -/
def strDropRight (s : String) (n : Nat) : String :=
  ⟨s.data.take (s.data.length - n)⟩

/-- Python `len(s)` (number of characters). -/
def strLen (s : String) : Nat := s.data.length

/-- `posixpath.basename`: the part after the last slash. -/
def pyBasename (s : String) : String :=
  ⟨(s.data.reverse.takeWhile (fun c => c != '/')).reverse⟩

/-- `posixpath.dirname`: everything before the last slash, with trailing
slashes stripped unless the head consists only of slashes. -/
def pyDirname (s : String) : String :=
  let rev := s.data.reverse
  let headRev := rev.dropWhile (fun c => c != '/')
  if headRev.isEmpty then ""
  else if headRev.all (fun c => c == '/') then ⟨headRev.reverse⟩
  else ⟨(headRev.dropWhile (fun c => c == '/')).reverse⟩

/-- The stem part of `posixpath.splitext` applied to a basename `b`:
split at the last dot, provided some earlier character of `b` is not a
dot (so `.bashrc` does not split). -/
def pySplitextStem (b : String) : String :=
  let rev := b.data.reverse
  let after := rev.takeWhile (fun c => c != '.')
  if after.length == rev.length then b
  else
    let stem := (rev.drop (after.length + 1)).reverse
    if stem.all (fun c => c == '.') then b else ⟨stem⟩

/-- `posixpath.join` restricted to two components: an absolute second
component wins; otherwise the parts are joined with a single slash
(none added after an empty or slash-terminated first component). -/
def pyJoin2 (a b : String) : String :=
  if strStarts "/" b then b
  else if a == "" || strEnds "/" a then a ++ b
  else a ++ "/" ++ b

/-- One step of Python `str.replace` on character lists, with fuel.
Replaces leftmost non-overlapping occurrences of the (nonempty) pattern
`src` by `dst`.  Fuel at least the length of the list is always enough,
since every step consumes at least one character. -/
def pyReplaceFuel (src dst : List Char) : Nat → List Char → List Char
  | _, [] => []
  | 0, l => l
  | Nat.succ f, c :: cs =>
    if src ≠ [] ∧ src.isPrefixOf (c :: cs) then
      dst ++ pyReplaceFuel src dst f ((c :: cs).drop src.length)
    else
      c :: pyReplaceFuel src dst f cs

/-- Python `s.replace("", dst)` interleaves `dst` between all characters
(and at both ends). -/
def pyReplaceEmptyPat (dst : List Char) : List Char → List Char
  | [] => dst
  | c :: cs => dst ++ c :: pyReplaceEmptyPat dst cs

/-- Python `url.replace(src, dst)`: replace every (leftmost,
non-overlapping) occurrence of `src` in `url` by `dst`. -/
def pyReplace (src dst s : String) : String :=
  if src.data.isEmpty then ⟨pyReplaceEmptyPat dst.data s.data⟩
  else ⟨pyReplaceFuel src.data dst.data s.data.length s.data⟩

/-! ## The Docker runtime config carried by every layer

`conda_docker/docker/base.py` gives each freshly minted layer a default
config dict (when the `config` argument is `None` or falsy).  Any config
value of this shape is a nonempty Python dict, hence truthy, so the
`config or default` idiom in `Layer.__init__` keeps a supplied config of
this shape and substitutes the default exactly when the argument is
`None`. -/

structure DockerConfig where
  Hostname : String
  Domainname : String
  User : String
  AttachStdin : Bool
  AttachStdout : Bool
  AttachStderr : Bool
  Tty : Bool
  OpenStdin : Bool
  StdinOnce : Bool
  Env : List String
  Cmd : List String
  ArgsEscaped : Bool
  Image : String
  Volumes : Option String
  WorkingDir : String
  Entrypoint : List String
  OnBuild : Option String
  Labels : List (String × String)
deriving DecidableEq, Repr

/-- `conda_docker.__version__` (from `setup.py`). -/
def condaDockerVersion : String := "0.0.2"

/-- The default layer config dict from `Layer.__init__`. -/
def defaultConfig : DockerConfig where
  Hostname := ""
  Domainname := ""
  User := "root"
  AttachStdin := false
  AttachStdout := false
  AttachStderr := false
  Tty := false
  OpenStdin := false
  StdinOnce := false
  Env := ["PATH=/usr/local/sbin:/usr/local/bin:/usr/sbin:/usr/bin:/sbin:/bin"]
  Cmd := ["/bin/bash"]
  ArgsEscaped := true
  Image := "todo-implement"
  Volumes := none
  WorkingDir := ""
  Entrypoint := ["/bin/sh", "-c"]
  OnBuild := none
  Labels := [("CONDA_DOCKER", condaDockerVersion)]

/-- `config or {...default...}` from `Layer.__init__`: a `None` config is
replaced by the default; a config dict of the `DockerConfig` shape is
nonempty, hence truthy, and kept as is. -/
def resolveConfig : Option DockerConfig → DockerConfig
  | none => defaultConfig
  | some c => c

/-! ## Layers and images (`conda_docker/docker/base.py`)

The `content` of a layer is the byte string of its tar; the embedding is
generic in the representation `α` of those bytes (the v1 codec treats
them opaquely, while the layering engine represents them as a list of
tar entries). -/

structure Layer (α : Type) where
  id : String
  parent : Option String
  architecture : Option String
  os : String
  created : String
  author : Option String
  checksum : Option String
  size : Option Nat
  content : α
  config : DockerConfig
deriving DecidableEq, Repr

structure Image (α : Type) where
  name : String
  tag : String
  layers : List (Layer α)
deriving DecidableEq, Repr

/-- `Image._add_layer(digest, base_id)`: mint a layer whose `parent` is
the current head's `id` (or `None` for an empty image) and whose `id` is
`base_id` when given, else a fresh `secrets.token_hex(32)` value
(modelled by the explicit argument `freshId`); insert it at the head.
`digestLen` models `len(digest)` and `created` the current UTC
timestamp string. -/
def Image.addLayer (img : Image α) (digest : α) (digestLen : Nat)
    (baseId : Option String) (freshId : String) (created : String) :
    Image α :=
  let parentId : Option String :=
    match img.layers with
    | [] => none
    | l :: _ => some l.id
  let layerId : String :=
    match baseId with
    | none => freshId
    | some b => b
  { img with
    layers :=
      { id := layerId
        parent := parentId
        architecture := some "amd64"
        os := "linux"
        created := created
        author := some "conda-docker"
        checksum := none
        size := some digestLen
        content := digest
        config := resolveConfig none } :: img.layers }

/-- The parent-chain invariant of §3 of the spec: each layer's `parent`
is the `id` of the next layer down, and the last layer's `parent` is
empty (`None`). -/
def chainOk {α : Type} : List (Layer α) → Prop
  | [] => True
  | [l] => l.parent = none
  | a :: b :: rest => a.parent = some b.id ∧ chainOk (b :: rest)

/-- One append operation: every `add_layer_path` / `add_layer_paths` /
`add_layer_contents` call that completes ends in `_add_layer` with some
digest, an optional `base_id`, a fresh random id and a timestamp. -/
structure AddOp (α : Type) where
  digest : α
  digestLen : Nat
  baseId : Option String
  freshId : String
  created : String

/-- Append-only construction: an arbitrary sequence of layer-append
operations applied to an image with an empty layer list. -/
def buildImage (name tag : String) (ops : List (AddOp α)) : Image α :=
  ops.foldl
    (fun img op => img.addLayer op.digest op.digestLen op.baseId op.freshId op.created)
    ⟨name, tag, []⟩

/-! ## Tar entry writers (`conda_docker/docker/tar.py`)

A tar entry header is modelled by its archive name (plus the size set by
`_add_file`; no filter in the repository reads any other header field,
so the remaining `stat`-derived metadata is not modelled).  A tar byte
stream produced by the writers is modelled as the list of its entries,
in emission order. -/

structure TarInfo where
  name : String
  size : Nat
deriving DecidableEq, Repr

/-- A tar filter value: `None`, or a predicate mapping an entry header
to `None` (drop) or a (possibly modified) header. -/
abbrev TarFilter : Type := Option (TarInfo → Option TarInfo)

/-- Apply an optional filter to an entry header, as `_add_file` and
`tarfile.add` do: a missing filter keeps the entry; a filter returning
`None` drops it. -/
def applyFilter (filter : TarFilter) (ti : TarInfo) : Option TarInfo :=
  match filter with
  | none => some ti
  | some f => f ti

/-- `conda_file_filter(trim_static_libs, trim_js_maps)` from
`conda_docker/conda.py`: drop any entry whose name ends with `.a` or
with `.js.map`; keep the entry itself otherwise. -/
def condaFileFilter (trimStaticLibs trimJsMaps : Bool) : TarInfo → Option TarInfo :=
  fun tarInfo =>
    if trimStaticLibs && strEnds ".a" tarInfo.name then none
    else if trimJsMaps && strEnds ".js.map" tarInfo.name then none
    else some tarInfo

/-- `write_tar_from_contents(contents, filter)`: one synthetic entry per
`name → bytes` pair, in insertion order, with `size = len(bytes)`. -/
def writeTarFromContents (contents : List (String × List Nat))
    (filter : TarFilter) : List TarInfo :=
  contents.filterMap (fun e => applyFilter filter { name := e.1, size := e.2.length })

/-- Errors raised by the tar writers (a missing source path makes
`tarfile.add` fail). -/
inductive TarErr where
  | fileNotFound (path : String)
deriving DecidableEq, Repr

/-- `write_tar_from_paths(paths, filter)`: for each `host → arc` pair in
insertion order, `tar.add(host, arcname=arc, recursive=False,
filter=filter)`.  `tree` is the set of host paths that exist; a missing
host path is fatal.  (The inode deduplication of hard links changes the
entry type of a repeated inode, not the set of entry names, and no claim
depends on it.) -/
def writeTarFromPaths (tree : List String) (paths : List (String × String))
    (filter : TarFilter) : Except TarErr (List TarInfo) :=
  match paths with
  | [] => .ok []
  | (host, arc) :: rest =>
    if tree.contains host then
      match writeTarFromPaths tree rest filter with
      | .error e => .error e
      | .ok tis =>
        match applyFilter filter { name := arc, size := 0 } with
        | none => .ok tis
        | some ti => .ok (ti :: tis)
    else
      .error (.fileNotFound host)

/-- `write_tar_from_path(path, arcpath, recursive, filter)`:
`tar.add(path, arcname=arcpath, recursive=recursive, filter=filter)` on
a directory `root` whose entries are `tree` (all paths strictly below
`root`).  The entry for `root` itself carries the archive name
`arcpath` (or `root` when `arcpath` is `None`); a descendant `p` gets
`os.path.join`-composition of `arcpath` with its path relative to
`root`.  The filter is applied to every entry header.  (The
per-directory recursion of `tarfile` is flattened; pruning of the
subtree below a filtered-out directory is not modelled, which can only
add entries.) -/
def writeTarFromPath (root : String) (tree : List String)
    (arcpath : Option String) (recursive : Bool) (filter : TarFilter) :
    List TarInfo :=
  if recursive then
    (applyFilter filter { name := arcpath.getD root, size := 0 }).toList ++
      tree.filterMap (fun p =>
        applyFilter filter
          { name := pyJoin2 (arcpath.getD root) (strDrop p (strLen root + 1)),
            size := 0 })
  else
    (applyFilter filter { name := arcpath.getD root, size := 0 }).toList

/-! ## The v1 image-tar codec (`conda_docker/docker/tar.py`)

A v1 image tar is a list of named entries.  The JSON payloads are
modelled structurally: the `repositories` index is the JSON mapping
`name → {tag → head_layer_id}`, and a layer's `json` entry is the
record written by `write_v1_layer_metadata` (whose optional keys are
present exactly when the layer field is not `None`; the `id`, `os` and
`created` fields of a `Layer` are always strings, hence always
present). -/

structure LayerMeta where
  id : String
  parent : Option String
  architecture : Option String
  os : String
  created : String
  author : Option String
  checksum : Option String
  size : Option Nat
  config : DockerConfig
  container_config : DockerConfig
deriving DecidableEq, Repr

inductive TarContent (α : Type) where
  | bytes (b : List Nat)
  | layerTar (c : α)
  | repo (entries : List (String × List (String × String)))
  | meta (m : LayerMeta)
deriving DecidableEq

/-- A tar archive, as the list of its named entries in file order. -/
abbrev TarFile (α : Type) : Type := List (String × TarContent α)

/-- `tar.extractfile(name)` via `getmember`: when a member occurs more
than once, its **last** occurrence wins; a missing member is `None`
(`KeyError`). -/
def tarLookup : TarFile α → String → Option (TarContent α)
  | [], _ => none
  | (n, c) :: rest, key =>
    match tarLookup rest key with
    | some v => some v
    | none => if n == key then some c else none

/-- `write_v1_layer_metadata(layer)`: the metadata JSON, with `config`
and `container_config` both set to the layer's config. -/
def writeV1LayerMetadata (l : Layer α) : LayerMeta where
  id := l.id
  parent := l.parent
  architecture := l.architecture
  os := l.os
  created := l.created
  author := l.author
  checksum := l.checksum
  size := l.size
  config := l.config
  container_config := l.config

/-- `write_v1_repositories(image)`: serializes
`{image.name: {image.tag: image.layers[0].id}}`; indexing `layers[0]`
on an image with no layers raises `IndexError`, modelled by `none`. -/
def writeV1Repositories (img : Image α) :
    Option (List (String × List (String × String))) :=
  match img.layers with
  | [] => none
  | l :: _ => some [(img.name, [(img.tag, l.id)])]

/-- The `b"1.0"` bytes of a `VERSION` entry. -/
def versionBytes : List Nat := [49, 46, 48]

/-- The three entries `write_v1` emits for one layer. -/
def layerEntries (l : Layer α) : TarFile α :=
  [ (l.id ++ "/VERSION", .bytes versionBytes),
    (l.id ++ "/layer.tar", .layerTar l.content),
    (l.id ++ "/json", .meta (writeV1LayerMetadata l)) ]

def v1Entries : List (Layer α) → TarFile α
  | [] => []
  | l :: ls => layerEntries l ++ v1Entries ls

/-- `write_v1(image, filename)`: the `repositories` entry followed by
`VERSION`/`layer.tar`/`json` for every layer in order.  Fails (no tar
is produced) exactly when the repositories writer fails on an empty
layer list. -/
def writeV1 (img : Image α) : Option (TarFile α) :=
  match writeV1Repositories img with
  | none => none
  | some repoEntries => some (("repositories", .repo repoEntries) :: v1Entries img.layers)

/-- `_parse_v1_layer(tar, layer_id)`: read `{layer_id}/json` and
`{layer_id}/layer.tar` and rebuild the `Layer` (whose constructor
substitutes the default config exactly for a missing/falsy config; a
config dict of the modelled shape is nonempty, hence kept). -/
def parseV1Layer (tar : TarFile α) (layerId : String) : Option (Layer α) :=
  match tarLookup tar (layerId ++ "/json") with
  | some (.meta d) =>
    match tarLookup tar (layerId ++ "/layer.tar") with
    | some (.layerTar content) =>
      some
        { id := d.id
          parent := d.parent
          architecture := d.architecture
          os := d.os
          created := d.created
          author := d.author
          checksum := d.checksum
          size := d.size
          content := content
          config := resolveConfig (some d.config) }
    | _ => none
  | _ => none

/-- The `while current_layer.parent is not None` walk of `parse_v1`,
with fuel (the Python loop diverges on a cyclic parent chain and raises
on a dangling one; both are modelled by `none`). -/
def parseChain (tar : TarFile α) : Nat → String → Option (List (Layer α))
  | 0, _ => none
  | fuel + 1, layerId =>
    match parseV1Layer tar layerId with
    | none => none
    | some current =>
      match current.parent with
      | none => some [current]
      | some parentId =>
        match parseChain tar fuel parentId with
        | none => none
        | some rest => some (current :: rest)

/-- The inner loop of `parse_v1` over `{tag → head_layer_id}`. -/
def parseTags (tar : TarFile α) (name : String) :
    List (String × String) → Option (List (Image α))
  | [] => some []
  | (tag, layerId) :: rest =>
    match parseChain tar tar.length layerId with
    | none => none
    | some layers =>
      match parseTags tar name rest with
      | none => none
      | some imgs => some (⟨name, tag, layers⟩ :: imgs)

/-- The outer loop of `parse_v1` over the `repositories` mapping. -/
def parseRepos (tar : TarFile α) :
    List (String × List (String × String)) → Option (List (Image α))
  | [] => some []
  | (name, cfg) :: rest =>
    match parseTags tar name cfg with
    | none => none
    | some imgs =>
      match parseRepos tar rest with
      | none => none
      | some imgs2 => some (imgs ++ imgs2)

/-- `parse_v1(tar)`: read the `repositories` JSON and rebuild every
`(name, tag)` image by walking its parent chain. -/
def parseV1 (tar : TarFile α) : Option (List (Image α)) :=
  match tarLookup tar "repositories" with
  | some (.repo d) => parseRepos tar d
  | _ => none

/-- `Image.from_file(filename)`: open the tar and return
`parse_v1(tar)` — the full list of images found, not a single image. -/
def fromFile (tar : TarFile α) : Option (List (Image α)) :=
  parseV1 tar

/-- The `scratch` pseudo-base special case of
`build_docker_environment` (`conda.py` lines 753–754): an `Image` with
the output name and tag and no layers, constructed without any network
I/O. -/
def scratchImage (name tag : String) : Image α :=
  ⟨name, tag, []⟩

theorem addLayer_layers (img : Image α) (d : α) (n : Nat)
    (b : Option String) (f c : String) :
    ∃ l, (img.addLayer d n b f c).layers = l :: img.layers ∧
      l.parent = (match img.layers with | [] => none | x :: _ => some x.id) := by
  refine ⟨_, rfl, ?_⟩
  cases img.layers <;> rfl

theorem chainOk_addLayer (img : Image α) (d : α) (n : Nat)
    (b : Option String) (f c : String) (h : chainOk img.layers) :
    chainOk (img.addLayer d n b f c).layers := by
  cases himg : img.layers with
  | nil => simp [Image.addLayer, himg, chainOk]
  | cons x xs =>
    rw [himg] at h
    simp only [Image.addLayer, himg]
    exact ⟨rfl, h⟩

/-- **C3.** For every image built by append-only construction (any
sequence of `add_layer_path` / `add_layer_paths` / `add_layer_contents`
calls starting from an empty layer list), the parent chain invariant
holds: every layer's `parent` equals the `id` of the next layer, and
the last layer's `parent` is empty (`None`).  Moreover each append
places the new layer at the head with `parent` equal to the previous
head's `id`, and a layer appended to an empty image has an empty
parent. -/
theorem append_only_chain_invariant :
    (∀ (α : Type) (name tag : String) (ops : List (AddOp α)),
        chainOk (buildImage name tag ops).layers) ∧
    (∀ (α : Type) (img : Image α) (d : α) (n : Nat) (b : Option String)
        (f c : String),
        ∃ l, (img.addLayer d n b f c).layers = l :: img.layers ∧
          l.parent = (match img.layers with | [] => none | x :: _ => some x.id)) := by
  constructor
  · intro α name tag ops
    suffices h : ∀ (img : Image α), chainOk img.layers →
        chainOk (ops.foldl (fun img op =>
          img.addLayer op.digest op.digestLen op.baseId op.freshId op.created) img).layers by
      exact h ⟨name, tag, []⟩ trivial
    induction ops with
    | nil => intro img h; exact h
    | cons op rest ih =>
      intro img h
      exact ih _ (chainOk_addLayer img _ _ _ _ _ h)
  · intro α img d n b f c
    exact addLayer_layers img d n b f c

/-! ## The v1 round trip (claim C4) -/

theorem strLast_append (a s : String) (h : s.data ≠ []) :
    (a ++ s).data.getLast? = s.data.getLast? := by
  rw [String.data_append]
  exact List.getLast?_append_of_ne_nil a.data h

theorem ne_append_of_last (a s b t : String) (hs : s.data ≠ []) (ht : t.data ≠ [])
    (h : s.data.getLast? ≠ t.data.getLast?) : a ++ s ≠ b ++ t := by
  intro he
  apply h
  rw [← strLast_append a s hs, he, strLast_append b t ht]

theorem strAppend_cancel {a b s : String} (h : a ++ s = b ++ s) : a = b := by
  have hd : a.data ++ s.data = b.data ++ s.data := by
    rw [← String.data_append, ← String.data_append, h]
  have h2 := List.append_cancel_right hd
  cases a
  cases b
  exact congrArg String.mk h2

theorem tarLookup_append (t₁ t₂ : TarFile α) (key : String) :
    tarLookup (t₁ ++ t₂) key =
      match tarLookup t₂ key with
      | some v => some v
      | none => tarLookup t₁ key := by
  induction t₁ with
  | nil =>
    show tarLookup t₂ key = _
    cases tarLookup t₂ key <;> rfl
  | cons e rest ih =>
    obtain ⟨n, c⟩ := e
    show (match tarLookup (rest ++ t₂) key with
      | some v => some v
      | none => if n == key then some c else none) = _
    rw [ih]
    cases tarLookup t₂ key <;> rfl

theorem tarLookup_layerEntries_json (l : Layer α) (lid : String) :
    tarLookup (layerEntries l) (lid ++ "/json") =
      if l.id = lid then some (.meta (writeV1LayerMetadata l)) else none := by
  have hv : (l.id ++ "/VERSION" == lid ++ "/json") = false := by
    rw [beq_eq_false_iff_ne]
    exact ne_append_of_last _ _ _ _ (by decide) (by decide) (by decide)
  have ht : (l.id ++ "/layer.tar" == lid ++ "/json") = false := by
    rw [beq_eq_false_iff_ne]
    exact ne_append_of_last _ _ _ _ (by decide) (by decide) (by decide)
  by_cases h : l.id = lid
  · subst h
    simp [layerEntries, tarLookup, hv, ht]
  · have hj : (l.id ++ "/json" == lid ++ "/json") = false := by
      rw [beq_eq_false_iff_ne]
      intro he
      exact h (strAppend_cancel he)
    simp [layerEntries, tarLookup, hv, ht, hj, h]

theorem tarLookup_layerEntries_tar (l : Layer α) (lid : String) :
    tarLookup (layerEntries l) (lid ++ "/layer.tar") =
      if l.id = lid then some (.layerTar l.content) else none := by
  have hv : (l.id ++ "/VERSION" == lid ++ "/layer.tar") = false := by
    rw [beq_eq_false_iff_ne]
    exact ne_append_of_last _ _ _ _ (by decide) (by decide) (by decide)
  have hj : (l.id ++ "/json" == lid ++ "/layer.tar") = false := by
    rw [beq_eq_false_iff_ne]
    exact ne_append_of_last _ _ _ _ (by decide) (by decide) (by decide)
  by_cases h : l.id = lid
  · subst h
    simp [layerEntries, tarLookup, hv, hj]
  · have ht : (l.id ++ "/layer.tar" == lid ++ "/layer.tar") = false := by
      rw [beq_eq_false_iff_ne]
      intro he
      exact h (strAppend_cancel he)
    simp [layerEntries, tarLookup, hv, ht, hj, h]

theorem tarLookup_layerEntries_repositories (l : Layer α) :
    tarLookup (layerEntries l) "repositories" = none := by
  have e : ∀ s : String, s = "" ++ s := fun s => by
    cases s
    exact congrArg String.mk rfl
  have hv : (l.id ++ "/VERSION" == "repositories") = false := by
    rw [beq_eq_false_iff_ne, e "repositories"]
    exact ne_append_of_last _ _ _ _ (by decide) (by decide) (by decide)
  have ht : (l.id ++ "/layer.tar" == "repositories") = false := by
    rw [beq_eq_false_iff_ne, e "repositories"]
    exact ne_append_of_last _ _ _ _ (by decide) (by decide) (by decide)
  have hj : (l.id ++ "/json" == "repositories") = false := by
    rw [beq_eq_false_iff_ne, e "repositories"]
    exact ne_append_of_last _ _ _ _ (by decide) (by decide) (by decide)
  simp [layerEntries, tarLookup, hv, ht, hj]

theorem tarLookup_v1Entries_repositories (layers : List (Layer α)) :
    tarLookup (v1Entries layers) "repositories" = none := by
  induction layers with
  | nil => rfl
  | cons l ls ih =>
    rw [v1Entries, tarLookup_append, ih, tarLookup_layerEntries_repositories]

theorem tarLookup_v1Entries_json_none (layers : List (Layer α)) (lid : String)
    (h : ∀ x ∈ layers, x.id ≠ lid) :
    tarLookup (v1Entries layers) (lid ++ "/json") = none := by
  induction layers with
  | nil => rfl
  | cons l ls ih =>
    rw [v1Entries, tarLookup_append,
      ih (fun x hx => h x (List.mem_cons_of_mem l hx)),
      tarLookup_layerEntries_json, if_neg (h l (List.mem_cons_self l ls))]

theorem tarLookup_v1Entries_tar_none (layers : List (Layer α)) (lid : String)
    (h : ∀ x ∈ layers, x.id ≠ lid) :
    tarLookup (v1Entries layers) (lid ++ "/layer.tar") = none := by
  induction layers with
  | nil => rfl
  | cons l ls ih =>
    rw [v1Entries, tarLookup_append,
      ih (fun x hx => h x (List.mem_cons_of_mem l hx)),
      tarLookup_layerEntries_tar, if_neg (h l (List.mem_cons_self l ls))]

theorem tarLookup_v1Entries_json (layers : List (Layer α)) (l : Layer α)
    (hmem : l ∈ layers) (hnd : (layers.map Layer.id).Nodup) :
    tarLookup (v1Entries layers) (l.id ++ "/json") =
      some (.meta (writeV1LayerMetadata l)) := by
  induction layers with
  | nil => cases hmem
  | cons a as ih =>
    rw [List.map_cons, List.nodup_cons] at hnd
    rw [v1Entries, tarLookup_append]
    rcases List.mem_cons.mp hmem with rfl | hmem2
    · have hnone : ∀ x ∈ as, x.id ≠ l.id := by
        intro x hx he
        exact hnd.1 (he ▸ List.mem_map_of_mem Layer.id hx)
      rw [tarLookup_v1Entries_json_none as l.id hnone,
        tarLookup_layerEntries_json, if_pos rfl]
    · rw [ih hmem2 hnd.2]

theorem tarLookup_v1Entries_tar (layers : List (Layer α)) (l : Layer α)
    (hmem : l ∈ layers) (hnd : (layers.map Layer.id).Nodup) :
    tarLookup (v1Entries layers) (l.id ++ "/layer.tar") =
      some (.layerTar l.content) := by
  induction layers with
  | nil => cases hmem
  | cons a as ih =>
    rw [List.map_cons, List.nodup_cons] at hnd
    rw [v1Entries, tarLookup_append]
    rcases List.mem_cons.mp hmem with rfl | hmem2
    · have hnone : ∀ x ∈ as, x.id ≠ l.id := by
        intro x hx he
        exact hnd.1 (he ▸ List.mem_map_of_mem Layer.id hx)
      rw [tarLookup_v1Entries_tar_none as l.id hnone,
        tarLookup_layerEntries_tar, if_pos rfl]
    · rw [ih hmem2 hnd.2]

theorem parseV1Layer_written (hd : List (String × List (String × String)))
    (layers : List (Layer α)) (l : Layer α)
    (hmem : l ∈ layers) (hnd : (layers.map Layer.id).Nodup) :
    parseV1Layer (("repositories", .repo hd) :: v1Entries layers) l.id = some l := by
  have hj := tarLookup_v1Entries_json layers l hmem hnd
  have ht := tarLookup_v1Entries_tar layers l hmem hnd
  have hj2 : tarLookup (("repositories", TarContent.repo hd) :: v1Entries layers)
      (l.id ++ "/json") = some (.meta (writeV1LayerMetadata l)) := by
    show (match tarLookup (v1Entries layers) (l.id ++ "/json") with
      | some v => some v
      | none => _) = _
    rw [hj]
  have ht2 : tarLookup (("repositories", TarContent.repo hd) :: v1Entries layers)
      (l.id ++ "/layer.tar") = some (.layerTar l.content) := by
    show (match tarLookup (v1Entries layers) (l.id ++ "/layer.tar") with
      | some v => some v
      | none => _) = _
    rw [ht]
  rw [parseV1Layer, hj2, ht2]
  cases l
  rfl

theorem parseChain_written (hd : List (String × List (String × String)))
    (layers : List (Layer α)) (hnd : (layers.map Layer.id).Nodup)
    (chain : List (Layer α)) (l : Layer α) (fuel : Nat)
    (hchain : chainOk (l :: chain)) (hsub : ∀ x ∈ l :: chain, x ∈ layers)
    (hfuel : (l :: chain).length ≤ fuel) :
    parseChain (("repositories", .repo hd) :: v1Entries layers) fuel l.id =
      some (l :: chain) := by
  induction chain generalizing l fuel with
  | nil =>
    obtain ⟨f, rfl⟩ : ∃ f, fuel = f + 1 := by
      cases fuel with
      | zero => simp at hfuel
      | succ f => exact ⟨f, rfl⟩
    have hl := parseV1Layer_written hd layers l (hsub l (by simp)) hnd
    have hp : l.parent = none := hchain
    simp [parseChain, hl, hp]
  | cons b rest ih =>
    obtain ⟨f, rfl⟩ : ∃ f, fuel = f + 1 := by
      cases fuel with
      | zero => simp at hfuel
      | succ f => exact ⟨f, rfl⟩
    obtain ⟨hp, hrest⟩ : l.parent = some b.id ∧ chainOk (b :: rest) := hchain
    have hl := parseV1Layer_written hd layers l (hsub l (by simp)) hnd
    have hr := ih b f hrest (fun x hx => hsub x (List.mem_cons_of_mem l hx))
      (by simpa using Nat.le_of_succ_le_succ hfuel)
    simp [parseChain, hl, hp, hr]

theorem v1Entries_length (layers : List (Layer α)) :
    (v1Entries layers).length = 3 * layers.length := by
  induction layers with
  | nil => rfl
  | cons l ls ih =>
    rw [v1Entries, List.length_append, ih]
    simp [layerEntries, List.length_cons]
    ring

/-- **C4.** For every image `I` with at least one layer and a valid
parent chain (the §3 invariant, with pairwise distinct layer ids),
parsing the v1 tar produced by `write_v1(I)` with `parse_v1` yields
exactly `[I]`: the same name, tag, and for each layer (in the same
order) the same id, parent, content bytes, and config — and in fact
all remaining fields as well. -/
theorem tarLookup_cons_self (n : String) (c : TarContent α) (rest : TarFile α)
    (h : tarLookup rest n = none) : tarLookup ((n, c) :: rest) n = some c := by
  show (match tarLookup rest n with
    | some v => some v
    | none => if n == n then some c else none) = some c
  rw [h]
  simp

theorem parse_write_v1_roundtrip {α : Type} (img : Image α)
    (hne : img.layers ≠ []) (hchain : chainOk img.layers)
    (hnd : (img.layers.map Layer.id).Nodup) :
    (writeV1 img).bind parseV1 = some [img] := by
  obtain ⟨name, tag, layers⟩ := img
  match layers, hne with
  | l :: ls, _ =>
    simp only [writeV1, writeV1Repositories, Option.some_bind]
    have hrepo := tarLookup_cons_self "repositories"
      (TarContent.repo [(name, [(tag, l.id)])]) (v1Entries (l :: ls))
      (tarLookup_v1Entries_repositories (l :: ls))
    have hfuel : (l :: ls).length ≤
        (("repositories", TarContent.repo [(name, [(tag, l.id)])]) ::
          v1Entries (l :: ls) : TarFile α).length := by
      simp [v1Entries_length]
      omega
    have hchain2 := parseChain_written [(name, [(tag, l.id)])] (l :: ls) hnd ls l _
      hchain (fun x hx => hx) hfuel
    rw [parseV1, hrepo]
    simp only [parseRepos, parseTags]
    rw [hchain2]
    rfl

/-- Concrete two-layer image used by the C4 witness. -/
def imgC4 : Image (List Nat) :=
  ⟨"n", "t",
    [ { id := "aa", parent := some "bb", architecture := some "amd64",
        os := "linux", created := "t0", author := some "conda-docker",
        checksum := none, size := some 1, content := [1],
        config := defaultConfig },
      { id := "bb", parent := none, architecture := some "amd64",
        os := "linux", created := "t1", author := some "conda-docker",
        checksum := none, size := some 2, content := [2, 3],
        config := defaultConfig } ]⟩

/-- Witness for C4 at a concrete two-layer image. -/
theorem parse_write_v1_roundtrip_witness :
    (writeV1 imgC4).bind parseV1 = some [imgC4] :=
  parse_write_v1_roundtrip imgC4 (by decide)
    ⟨rfl, rfl⟩ (by decide)

/-! ## Writing an empty (scratch) image (claim C7) -/

/-- **C7 (counterexample).** Building from the `scratch` pseudo-base
with name `empty`, tag `v1` and no appended layers and then writing the
image does **not** produce a one-entry tar with
`repositories = {"empty": {"v1": ""}}`: `write_v1_repositories` indexes
`image.layers[0]` and raises `IndexError` on the empty layer list, so
no tar is produced at all. -/
theorem writeV1_scratch_not_claimed :
    writeV1 (scratchImage "empty" "v1" (α := List Nat)) ≠
      some [("repositories", .repo [("empty", [("v1", "")])])] := by
  intro h
  simp [writeV1, writeV1Repositories, scratchImage] at h

/-- **C7 (amended).** The `scratch` pseudo-base yields an image with no
layers (and no network I/O); writing such an image fails — the
repositories serializer needs a head layer — so no tar (in particular
no `repositories` entry) is emitted. -/
theorem writeV1_scratch_fails (α : Type) (name tag : String) :
    writeV1 (scratchImage name tag (α := α)) = none := rfl

/-! ## `Image.from_file` (claim C8) -/

/-- A second layer id used by the C8 counterexample tar. -/
def imgC8a : Image (List Nat) :=
  ⟨"img1", "latest",
    [ { id := "aa", parent := none, architecture := some "amd64",
        os := "linux", created := "t0", author := some "conda-docker",
        checksum := none, size := some 1, content := [1],
        config := defaultConfig } ]⟩

def imgC8b : Image (List Nat) :=
  ⟨"img2", "latest",
    [ { id := "bb", parent := none, architecture := some "amd64",
        os := "linux", created := "t1", author := some "conda-docker",
        checksum := none, size := some 2, content := [2],
        config := defaultConfig } ]⟩

/-- A v1 tar holding two images under distinct repository names. -/
def tarC8 : TarFile (List Nat) :=
  ("repositories",
    .repo [("img1", [("latest", "aa")]), ("img2", [("latest", "bb")])]) ::
    v1Entries imgC8a.layers ++ v1Entries imgC8b.layers

/-- **C8 (counterexample).** `Image.from_file` does not return a single
`Image` value: on an archive holding two images it returns the full
two-element list produced by `parse_v1`, not the first image alone. -/
theorem fromFile_not_first_image :
    fromFile tarC8 = some [imgC8a, imgC8b] ∧
      fromFile tarC8 ≠ some [imgC8a] := by
  constructor
  · rfl
  · intro h
    rw [show fromFile tarC8 = some [imgC8a, imgC8b] from rfl] at h
    simp at h

/-- **C8 (amended).** `Image.from_file(path)` delegates to the v1 tar
parser and returns the full list of images found in the archive (whose
head is the first image), rather than a single image. -/
theorem fromFile_delegates (α : Type) (tar : TarFile α) :
    fromFile tar = parseV1 tar := rfl

/-! ## Records, the download cache, and `fetch_precs`
(`conda_docker/conda.py`, `conda_docker/download.py`)

A filesystem is an association list from path to file data, newest
write first; an HTTP server is a function from URL to an optional
response (`none` models any fatal HTTP status).  The MD5 and SHA-256
digests of `hashlib` are external, so they are parameters `md5Hex` and
`sha256Hex` of every definition that hashes. -/

abbrev Bytes := List Nat

/-- The serialized `repodata_record.json` payload of a record
(`prec.dump()`).  Modelled from the spec: the record serializer of the
snapshot's `conda_models.py` stub is elided; §3 and §4.4 say it dumps
the record's own fields — in particular its unremapped `url` and
`channel`, the only two fields `write_repodata_records` rewrites. -/
structure RecordJson where
  url : String
  channel : String
  fn : String
  md5 : String
deriving DecidableEq, Repr

inductive FileData where
  | bin (b : Bytes)
  | recjson (r : RecordJson)
deriving DecidableEq, Repr

abbrev FS := List (String × FileData)

def fsGet : FS → String → Option FileData
  | [], _ => none
  | (q, d) :: rest, p => if q == p then some d else fsGet rest p

def fsSet (fs : FS) (p : String) (d : FileData) : FS :=
  (p, d) :: fs

/-- The bytes of a file (only raw byte files participate in hashing;
record JSON files are modelled structurally). -/
def fileBytes : FileData → Option Bytes
  | .bin b => some b
  | .recjson _ => none

/-- `md5_files(paths)` from `conda_docker/utils.py`: one MD5 over the
concatenated contents of all the files; `none` when some file cannot
be read. -/
def md5Files (md5Hex : Bytes → String) (fs : FS) : List String → Option String :=
  fun paths =>
    match paths.mapM (fun p => (fsGet fs p).bind fileBytes) with
    | none => none
    | some bodies => some (md5Hex bodies.flatten)

/-- A package record as consumed by `fetch_precs` (`PackageRecord` of
§3: `url`, `md5`, `fn`, `channel`; the remaining §3 fields play no role
in the claims). -/
structure Prec where
  url : String
  md5 : String
  fn : String
  channel : String
deriving DecidableEq, Repr

/-- `prec.dump()` (see `RecordJson`). -/
def Prec.dump (p : Prec) : RecordJson :=
  ⟨p.url, p.channel, p.fn, p.md5⟩

/-- `PackageCacheRecord.from_objects(prec, package_tarball_full_path,
extracted_package_dir)`.  Modelled from the spec: §3's
`PackageCacheRecord` extends the record with the two cache paths. -/
structure CacheRecord where
  url : String
  md5 : String
  fn : String
  channel : String
  package_tarball_full_path : String
  extracted_package_dir : String
deriving DecidableEq, Repr

def cacheRecordFromObjects (p : Prec) (tarball extracted : String) : CacheRecord :=
  ⟨p.url, p.md5, p.fn, p.channel, tarball, extracted⟩

/-- An HTTP response: the streamed body plus the advertised
`Content-Length` header, when present. -/
structure Resp where
  body : Bytes
  contentLength : Option Nat
deriving DecidableEq, Repr

abbrev Server := String → Option Resp

inductive FetchErr where
  | targetExists (target url : String)
  | httpError (url : String)
  | contentLengthMismatch (url : String) (expected got : Nat)
  | checksumMismatch (url target kind expected actual : String)
  | sizeMismatch (url : String) (expected got : Nat)
  | missingExtension (fn : String)
  | fileMissing (path : String)
deriving DecidableEq, Repr

/-- Python truthiness of an optional string (`None` and `""` are
falsy). -/
def pyTruthy : Option String → Bool
  | none => false
  | some s => s != ""

/-- `download(url, target_full_path, md5, sha256, size, ...)` from
`conda_docker/download.py`: refuse an existing target; stream the body
to the target; validate `Content-Length` when advertised; then compare
the SHA-256 (preferred) or MD5 digest against the caller-supplied
expectation, when one was supplied; then validate `size` when
supplied.  Mismatches are fatal. -/
def download (md5Hex sha256Hex : Bytes → String) (server : Server)
    (url targetFullPath : String) (md5 sha256 : Option String)
    (size : Option Nat) (fs : FS) : Except FetchErr FS :=
  if (fsGet fs targetFullPath).isSome then
    .error (.targetExists targetFullPath url)
  else
    match server url with
    | none => .error (.httpError url)
    | some resp =>
      let contentLength := resp.contentLength.getD 0
      let streamedBytes := resp.body.length
      let fs2 := fsSet fs targetFullPath (.bin resp.body)
      if contentLength != 0 && streamedBytes != contentLength then
        .error (.contentLengthMismatch url contentLength streamedBytes)
      else if pyTruthy sha256 then
        let expected := sha256.getD ""
        let actual := sha256Hex resp.body
        if actual != expected then
          .error (.checksumMismatch url targetFullPath "sha256" expected actual)
        else
          match size with
          | some sz =>
            if streamedBytes != sz then .error (.sizeMismatch url sz streamedBytes)
            else .ok fs2
          | none => .ok fs2
      else if pyTruthy md5 then
        let expected := md5.getD ""
        let actual := md5Hex resp.body
        if actual != expected then
          .error (.checksumMismatch url targetFullPath "md5" expected actual)
        else
          match size with
          | some sz =>
            if streamedBytes != sz then .error (.sizeMismatch url sz streamedBytes)
            else .ok fs2
          | none => .ok fs2
      else
        match size with
        | some sz =>
          if streamedBytes != sz then .error (.sizeMismatch url sz streamedBytes)
          else .ok fs2
        | none => .ok fs2

/-- `fetch_precs(download_dir, precs)` from `conda_docker/conda.py`:
for each record in order, reuse the cached tarball when its MD5 matches
the record's, otherwise call `download(prec.url, <download_dir>/<fn>)`
— passing **no** checksum or size arguments — then write the record's
`repodata_record.json` under the extracted dir and emit a
`PackageCacheRecord`. -/
def fetchPrecs (md5Hex sha256Hex : Bytes → String) (server : Server)
    (downloadDir : String) (precs : List Prec) (fs : FS) :
    Except FetchErr (FS × List CacheRecord) :=
  match precs with
  | [] => .ok (fs, [])
  | prec :: rest =>
    let tarball := pyJoin2 downloadDir prec.fn
    let extracted? : Option String :=
      if strEnds ".tar.bz2" tarball then some (strDropRight tarball 8)
      else if strEnds ".conda" tarball then some (strDropRight tarball 6)
      else none
    match extracted? with
    | none => .error (.missingExtension prec.fn)
    | some extracted =>
      let cached : Bool :=
        (fsGet fs tarball).isSome &&
          (md5Files md5Hex fs [tarball] == some prec.md5)
      let afterDownload : Except FetchErr FS :=
        if cached then .ok fs
        else download md5Hex sha256Hex server prec.url tarball none none none fs
      match afterDownload with
      | .error e => .error e
      | .ok fs2 =>
        let repodataPath := pyJoin2 (pyJoin2 extracted "info") "repodata_record.json"
        let fs3 := fsSet fs2 repodataPath (.recjson prec.dump)
        match fetchPrecs md5Hex sha256Hex server downloadDir rest fs3 with
        | .error e => .error e
        | .ok (fs4, records) =>
          .ok (fs4, cacheRecordFromObjects prec tarball extracted :: records)

/-! ## Claims C1 and C6: integrity of fetched tarballs

`fetch_precs` checks the MD5 of an already-cached tarball only to
decide cache reuse; the `download` call it makes passes **no** checksum
(and no size), so a freshly downloaded tarball is never verified — and
`download` refuses to overwrite an existing target, so a cached tarball
with a wrong MD5 can never be re-downloaded. -/

/-- A concrete stand-in digest: `[7]` hashes to `"aa"`, everything else
to `"ff"`. -/
def hashDemo : Bytes → String :=
  fun b => if b == [7] then "aa" else "ff"

/-- A record whose true tarball bytes are `[7]` (digest `"aa"`). -/
def precDemo : Prec := ⟨"u", "aa", "p.conda", "chan"⟩

/-- A server that serves corrupted bytes `[9]` for `precDemo.url`. -/
def serverBad : Server :=
  fun url => if url == "u" then some ⟨[9], none⟩ else none

/-- A server that serves the correct bytes `[7]` for `precDemo.url`. -/
def serverGood : Server :=
  fun url => if url == "u" then some ⟨[7], none⟩ else none

/-- The filesystem produced by fetching `precDemo` from `serverBad`. -/
def fsDemoBad : FS :=
  [ ("d/p/info/repodata_record.json", .recjson precDemo.dump),
    ("d/p.conda", .bin [9]) ]

/-- **C1 (failing run).** With an empty cache and a server that serves
bytes whose MD5 (`"ff"`) differs from the record's (`"aa"`),
`fetch_precs` succeeds and returns a record — no integrity error is
raised, because it downloads with no checksum argument — and the file
left at the record's tarball path has MD5 `"ff" ≠ "aa"`. -/
theorem fetchPrecs_downloads_unverified :
    fetchPrecs hashDemo hashDemo serverBad "d" [precDemo] [] =
      .ok (fsDemoBad, [cacheRecordFromObjects precDemo "d/p.conda" "d/p"]) ∧
    md5Files hashDemo fsDemoBad ["d/p.conda"] = some "ff" ∧
    precDemo.md5 = "aa" ∧ ("ff" : String) ≠ "aa" := by
  refine ⟨rfl, rfl, rfl, by decide⟩

/-- **C6 (failing run).** With the tarball already cached under a wrong
MD5 and a server that would serve the correct content, `fetch_precs`
fails fatally at once: the `download` call raises
`IOError("Target ... already exists")` before any network I/O, so no
re-download attempt is ever made. -/
theorem fetchPrecs_cached_bad_md5_fatal :
    fetchPrecs hashDemo hashDemo serverGood "d" [precDemo]
        [("d/p.conda", .bin [9])] =
      .error (.targetExists "d/p.conda" "u") ∧
    serverGood "u" = some ⟨[7], none⟩ ∧
    hashDemo [7] = precDemo.md5 := by
  refine ⟨rfl, rfl, rfl⟩

/-! ## Claim C9: URL remapping of image-visible catalog files
(`get_final_url`, `write_urls`, `write_repodata_records`) -/

/-- `get_final_url(channels_remap, url)`: the first remap entry whose
`src` is a prefix of `url` rewrites the url with Python
`url.replace(src, dst)`; with no matching entry the url is returned
unchanged.  (The `.tar.bz2` availability warning print is not
modelled.) -/
def getFinalUrl : List (String × String) → String → String
  | [], url => url
  | (src, dst) :: rest, url =>
    if strStarts src url then pyReplace src dst url
    else getFinalUrl rest url

/-- Python `"\n".join(lines)`. -/
def strJoinNL : List String → String
  | [] => ""
  | [x] => x
  | x :: y :: rest => x ++ "\n" ++ strJoinNL (y :: rest)

/-- The content `write_urls(records, host_pkgs_dir, channels_remap)`
writes to the `urls` file: one `{final_url}#{md5}` line per record,
then a final blank line. -/
def writeUrlsContent (records : List CacheRecord)
    (channelsRemap : List (String × String)) : String :=
  strJoinNL ((records.map
    (fun r => getFinalUrl channelsRemap r.url ++ "#" ++ r.md5)) ++ ["\n"])

/-- The dist name computed by `write_repodata_records` (note: it tests
`.conda` before `.tar.bz2`); `none` models the unbound-variable
`NameError` for an unknown suffix. -/
def distnameOf (fn : String) : Option String :=
  if strEnds ".conda" fn then some (strDropRight fn 6)
  else if strEnds ".tar.bz2" fn then some (strDropRight fn 8)
  else none

/-- `os.path.join(distname, "info", "repodata_record.json")`. -/
def repodataRelFile (dn : String) : String :=
  pyJoin2 (pyJoin2 dn "info") "repodata_record.json"

/-- The destination path `write_repodata_records` writes for a record
(under the staged `host_pkgs_dir`). -/
def repodataDest (hostPkgsDir : String) (r : CacheRecord) : Option String :=
  (distnameOf r.fn).map (fun dn => pyJoin2 hostPkgsDir (repodataRelFile dn))

/-- `write_repodata_records(download_dir, records, host_pkgs_dir,
channels_remap)`: for each record, read the
`repodata_record.json` previously written under the download
directory, rewrite its `url` and `channel` through the remap table,
and write the result under `host_pkgs_dir` — the source file is only
read, never written. -/
def writeRepodataRecords (downloadDir : String) (records : List CacheRecord)
    (hostPkgsDir : String) (channelsRemap : List (String × String))
    (fs : FS) : Except FetchErr FS :=
  match records with
  | [] => .ok fs
  | r :: rest =>
    match distnameOf r.fn with
    | none => .error (.missingExtension r.fn)
    | some dn =>
      match fsGet fs (pyJoin2 downloadDir (repodataRelFile dn)) with
      | some (.recjson rr) =>
        writeRepodataRecords downloadDir rest hostPkgsDir channelsRemap
          (fsSet fs (pyJoin2 hostPkgsDir (repodataRelFile dn))
            (.recjson { rr with
              url := getFinalUrl channelsRemap rr.url
              channel := getFinalUrl channelsRemap rr.channel }))
      | _ => .error (.fileMissing (pyJoin2 downloadDir (repodataRelFile dn)))

theorem strMkData (s : String) : String.mk s.data = s := by
  cases s
  rfl

theorem fsGet_set_ne (fs : FS) (q p : String) (d : FileData) (h : q ≠ p) :
    fsGet (fsSet fs q d) p = fsGet fs p := by
  show (if q == p then some d else fsGet fs p) = fsGet fs p
  rw [if_neg]
  simp [h]

theorem pyReplaceFuel_no_occ (src dst : List Char) :
    ∀ (fuel : Nat) (l : List Char), ¬ src <:+: l → l.length ≤ fuel →
      pyReplaceFuel src dst fuel l = l := by
  intro fuel
  induction fuel with
  | zero =>
    intro l h hl
    rw [List.length_eq_zero.mp (Nat.le_zero.mp hl)]
    rfl
  | succ f ih =>
    intro l h hl
    cases l with
    | nil => rfl
    | cons c cs =>
      have hnp : ¬ (src ≠ [] ∧ src.isPrefixOf (c :: cs) = true) := by
        rintro ⟨hne, hpre⟩
        exact h ((List.isPrefixOf_iff_prefix.mp hpre).isInfix)
      have hcs : ¬ src <:+: cs := fun hin => h (List.infix_cons hin)
      show (if src ≠ [] ∧ src.isPrefixOf (c :: cs) = true then
          dst ++ pyReplaceFuel src dst f ((c :: cs).drop src.length)
        else c :: pyReplaceFuel src dst f cs) = c :: cs
      rw [if_neg hnp, ih cs hcs (by simpa using Nat.le_of_succ_le_succ hl)]

theorem pyReplaceFuel_leading (c : Char) (cs dst rest : List Char)
    (hocc : ¬ (c :: cs) <:+: rest) :
    pyReplaceFuel (c :: cs) dst ((cs ++ rest).length + 1) (c :: (cs ++ rest)) =
      dst ++ rest := by
  have hpre : (c :: cs).isPrefixOf (c :: (cs ++ rest)) = true := by
    rw [List.isPrefixOf_iff_prefix, ← List.cons_append]
    exact List.prefix_append (c :: cs) rest
  show (if (c :: cs) ≠ [] ∧ (c :: cs).isPrefixOf (c :: (cs ++ rest)) = true then
      dst ++ pyReplaceFuel (c :: cs) dst (cs ++ rest).length
        ((c :: (cs ++ rest)).drop (c :: cs).length)
    else c :: pyReplaceFuel (c :: cs) dst (cs ++ rest).length (cs ++ rest))
      = dst ++ rest
  rw [if_pos ⟨List.cons_ne_nil c cs, hpre⟩]
  have hdrop : (c :: (cs ++ rest)).drop (c :: cs).length = rest := by
    rw [List.length_cons, List.drop_succ_cons, List.drop_left]
  rw [hdrop, pyReplaceFuel_no_occ (c :: cs) dst (cs ++ rest).length rest
    hocc (by rw [List.length_append]; omega)]

theorem pyReplace_of_leading (src dst rest : String) (hne : src.data ≠ [])
    (hocc : ¬ src.data <:+: rest.data) :
    pyReplace src dst (src ++ rest) = dst ++ rest := by
  obtain ⟨c, cs, hs⟩ : ∃ c cs, src.data = c :: cs := by
    cases hsd : src.data with
    | nil => exact absurd hsd hne
    | cons c cs => exact ⟨c, cs, rfl⟩
  have hemp : src.data.isEmpty = false := by rw [hs]; rfl
  unfold pyReplace
  rw [if_neg (by simp [hemp]), String.data_append, hs, List.cons_append,
    List.length_cons,
    pyReplaceFuel_leading c cs dst.data rest.data (hs ▸ hocc),
    ← String.data_append, strMkData]

theorem getFinalUrl_head (src dst rest : String) (rm : List (String × String))
    (hne : src.data ≠ []) (hocc : ¬ src.data <:+: rest.data) :
    getFinalUrl ((src, dst) :: rm) (src ++ rest) = dst ++ rest := by
  have hstart : strStarts src (src ++ rest) = true := by
    unfold strStarts
    rw [String.data_append, List.isPrefixOf_iff_prefix]
    exact List.prefix_append src.data rest.data
  show (if strStarts src (src ++ rest) = true then pyReplace src dst (src ++ rest)
    else getFinalUrl rm (src ++ rest)) = dst ++ rest
  rw [if_pos hstart]
  exact pyReplace_of_leading src dst rest hne hocc

theorem writeRepodataRecords_frame (downloadDir hostPkgsDir : String)
    (rm : List (String × String)) :
    ∀ (records : List CacheRecord) (fs fs2 : FS) (p : String),
      writeRepodataRecords downloadDir records hostPkgsDir rm fs = .ok fs2 →
      p ∉ records.filterMap (repodataDest hostPkgsDir) →
      fsGet fs2 p = fsGet fs p := by
  intro records
  induction records with
  | nil =>
    intro fs fs2 p hok hnot
    cases hok
    rfl
  | cons r rest ih =>
    intro fs fs2 p hok hnot
    rw [writeRepodataRecords] at hok
    split at hok
    · cases hok
    · rename_i dn hdn
      split at hok
      · rename_i rr hget
        have hdest : repodataDest hostPkgsDir r =
            some (pyJoin2 hostPkgsDir (repodataRelFile dn)) := by
          rw [repodataDest, hdn]
          rfl
        simp only [List.filterMap_cons, hdest, List.mem_cons, not_or] at hnot
        obtain ⟨hp1, hp2⟩ := hnot
        rw [ih _ fs2 p hok hp2, fsGet_set_ne _ _ _ _ (fun he => hp1 he.symm)]
      · cases hok

/-- **C9 (amended).** For every record list and remap table: (a) a URL
of the form `src ++ rest` (first matching remap entry `(src, dst)`,
`src` nonempty and not re-occurring in `rest`) is rewritten in the
`urls` catalog exactly to `dst ++ rest` — the Python
`url.replace(src, dst)` rewrites **all** occurrences, which coincides
with prefix rewriting in this case; (b) the `urls` file holds one
`{get_final_url(url)}#{md5}` line per record (plus the final blank
line); (c) `write_repodata_records` writes only under the staged
`host_pkgs_dir`, so the cached `repodata_record.json` files under the
download directory (and anything else) are untouched. -/
theorem urls_remap_rewrite_and_frame :
    (∀ (src dst rest : String) (rm : List (String × String)),
        src.data ≠ [] → ¬ src.data <:+: rest.data →
        getFinalUrl ((src, dst) :: rm) (src ++ rest) = dst ++ rest) ∧
    (∀ (records : List CacheRecord) (rm : List (String × String)),
        writeUrlsContent records rm =
          strJoinNL ((records.map
            (fun r => getFinalUrl rm r.url ++ "#" ++ r.md5)) ++ ["\n"])) ∧
    (∀ (downloadDir hostPkgsDir : String) (rm : List (String × String))
        (records : List CacheRecord) (fs fs2 : FS) (p : String),
        writeRepodataRecords downloadDir records hostPkgsDir rm fs = .ok fs2 →
        p ∉ records.filterMap (repodataDest hostPkgsDir) →
        fsGet fs2 p = fsGet fs p) := by
  refine ⟨?_, ?_, ?_⟩
  · intro src dst rest rm hne hocc
    exact getFinalUrl_head src dst rest rm hne hocc
  · intro records rm
    rfl
  · intro downloadDir hostPkgsDir rm records fs fs2 p hok hnot
    exact writeRepodataRecords_frame downloadDir hostPkgsDir rm records fs fs2 p hok hnot

/-- A record whose URL contains the remap source twice: once as the
prefix and once in the middle. -/
def recC9 : CacheRecord :=
  ⟨"https://A/t/https://A/p.conda", "m", "p.conda", "https://A/t", "", ""⟩

def remapC9 : List (String × String) := [("https://A/", "https://B/")]

/-- **C9 (counterexample).** The `urls` file is **not** always the
record URL with its `src` prefix rewritten to `dst`: Python
`str.replace` rewrites every occurrence of `src`, so for a URL
containing `src` twice the second occurrence is rewritten as well,
unlike the claimed prefix-only rewrite. -/
theorem urls_remap_counterexample :
    writeUrlsContent [recC9] remapC9 = "https://B/t/https://B/p.conda#m\n\n" ∧
    writeUrlsContent [recC9] remapC9 ≠ "https://B/t/https://A/p.conda#m\n\n" := by
  constructor
  · rfl
  · decide

/-- A download-directory record file used by the C9 witness. -/
def fsC9 : FS :=
  [("d/p/info/repodata_record.json",
    .recjson ⟨"https://A/p.conda", "https://A", "p.conda", "m"⟩)]

/-- The record list staged by the C9 witness. -/
def recsC9 : List CacheRecord :=
  [⟨"https://A/p.conda", "m", "p.conda", "https://A", "", ""⟩]

/-- The filesystem after `write_repodata_records` in the C9 witness
(the record's `url` is remapped; its `channel`, which lacks the
trailing slash of the remap source, is left unchanged). -/
def fsC9out : FS :=
  ("h/p/info/repodata_record.json",
    .recjson ⟨"https://B/p.conda", "https://A", "p.conda", "m"⟩) :: fsC9

/-- Witness for C9 at concrete inputs: the prefix rewrite and the
download-directory frame condition, instantiated. -/
theorem urls_remap_rewrite_and_frame_witness :
    (getFinalUrl (("https://A/", "https://B/") :: []) ("https://A/" ++ "x") =
      "https://B/" ++ "x") ∧
    fsGet fsC9out "d/p/info/repodata_record.json" =
      fsGet fsC9 "d/p/info/repodata_record.json" := by
  constructor
  · exact urls_remap_rewrite_and_frame.1 "https://A/" "https://B/" "x" []
      (by decide) (by decide)
  · exact urls_remap_rewrite_and_frame.2.2 "d" "h" remapC9 recsC9 fsC9 fsC9out
      "d/p/info/repodata_record.json" rfl (by decide)

/-! ## The layering engine (`conda_docker/conda.py`)

`add_conda_package_layers` walks the staging tree.  The tree is
modelled as the list of all paths strictly below the staging root
`hostpath`, in `os.walk` emission order; the contents of the
`conda-meta/<dist>.json` files are a lookup function from path to
parsed metadata. -/

/-- `get_dist_name(fn)`: basename, then strip `.tar.bz2`, else
`os.path.splitext`. -/
def getDistName (fn : String) : String :=
  let b := pyBasename fn
  if strEnds ".tar.bz2" b then strDropRight b 8
  else pySplitextStem b

/-- The part of a `conda-meta/<dist>.json` document the layering engine
reads: the `files` array and the optional `sha256`/`md5` digests. -/
structure CondaMeta where
  files : List String
  sha256 : Option String
  md5 : Option String
deriving DecidableEq, Repr

/-- `meta.get("sha256", meta.get("md5") + 32 * "0")`.  Python evaluates
the default argument eagerly, so a missing `md5` raises `TypeError`
(modelled by `none`) even when `sha256` is present. -/
def baseIdOf (m : CondaMeta) : Option String :=
  match m.md5 with
  | none => none
  | some h => some (m.sha256.getD (h ++ "00000000000000000000000000000000"))

/-- A Python dict from host path to archive path: association list in
key insertion order; re-assigning a key keeps its position and replaces
its value. -/
abbrev PathMap := List (String × String)

def dictSet (d : PathMap) (k v : String) : PathMap :=
  if d.any (fun e => e.1 == k) then
    d.map (fun e => if e.1 == k then (k, v) else e)
  else d ++ [(k, v)]

def dictSets (d : PathMap) : List (String × String) → PathMap
  | [] => d
  | (k, v) :: rest => dictSets (dictSet d k v) rest

/-- `os.path.join(hostpath, "opt", "conda", "conda-meta",
dist_name + ".json")`. -/
def condaMetaPath (hostpath distName : String) : String :=
  pyJoin2 (pyJoin2 (pyJoin2 (pyJoin2 hostpath "opt") "conda") "conda-meta")
    (distName ++ ".json")

/-- `_paths_from_record(record, hostpath, meta, dist_name)`: the
host→archive map of the paths a package owns — its `files` entries,
their parent directories, its package directory under `pkgs/`, its
`conda-meta` JSON, and everything `os.walk` finds under the package
directory. -/
def pathsFromRecord (hostpath : String) (tree : List String)
    (meta : CondaMeta) (distName : String) : PathMap :=
  let hostCondaOpt := pyJoin2 (pyJoin2 hostpath "opt") "conda"
  let distPath := pyJoin2 (pyJoin2 hostCondaOpt "pkgs") distName
  let filePairs := meta.files.map
    (fun f => (pyJoin2 hostCondaOpt f, "/opt/conda/" ++ f))
  let paths0 := dictSets [] filePairs
  let paths1 := dictSets paths0 (paths0.map (fun e => (pyDirname e.1, pyDirname e.2)))
  let paths2 := dictSet paths1 distPath (strDrop distPath (strLen hostpath))
  let metaPath := pyJoin2 (pyJoin2 hostCondaOpt "conda-meta") (distName ++ ".json")
  let paths3 := dictSet paths2 metaPath (strDrop metaPath (strLen hostpath))
  let walkPairs := (tree.filter (fun p => strStarts (distPath ++ "/") p)).map
    (fun p => (p, pyJoin2 (strDrop (pyDirname p) (strLen hostpath)) (pyBasename p)))
  dictSets paths3 walkPairs

/-- The catch-all path map of `add_conda_package_layers`: every staging
tree entry not already captured by a per-package layer, with the
archive name `os.path.join(root[len(hostpath):], name)`. -/
def catchAllPaths (hostpath : String) (tree : List String)
    (filesInLayers : List String) : PathMap :=
  (tree.filter (fun p => !(filesInLayers.contains p))).map
    (fun p => (p, pyJoin2 (strDrop (pyDirname p) (strLen hostpath)) (pyBasename p)))

inductive LayerErr where
  | metaMissing (path : String)
  | metaNoDigest
  | missingPath (path : String)
  | badStrategy (s : String)
deriving DecidableEq, Repr

/-- The per-record loop of `add_conda_package_layers`: processes
records in order, breaking as soon as `counter > 100`; for each record
it reads the package metadata, derives `base_id`, collects the owned
host paths into `files_in_layers`, and appends one layer built from the
record's path map.  Returns the image together with the final
`files_in_layers`.  (The modelled tar digest is the entry list; its
length stands in for `len(digest)`.) -/
def packageLayersLoop (tree : List String) (metas : String → Option CondaMeta)
    (hostpath : String) (filter : TarFilter) (freshId created : String) :
    Nat → List String → Image (List TarInfo) → List CacheRecord →
    Except LayerErr (Image (List TarInfo) × List String)
  | _, filesInLayers, img, [] => .ok (img, filesInLayers)
  | counter, filesInLayers, img, r :: rest =>
    if counter > 100 then .ok (img, filesInLayers)
    else
      match metas (condaMetaPath hostpath (getDistName r.fn)) with
      | none => .error (.metaMissing (condaMetaPath hostpath (getDistName r.fn)))
      | some meta =>
        match baseIdOf meta with
        | none => .error .metaNoDigest
        | some baseId =>
          match writeTarFromPaths tree
              (pathsFromRecord hostpath tree meta (getDistName r.fn)) filter with
          | .error (.fileNotFound p) => .error (.missingPath p)
          | .ok digest =>
            packageLayersLoop tree metas hostpath filter freshId created
              (counter + 1)
              (filesInLayers ++
                (pathsFromRecord hostpath tree meta (getDistName r.fn)).map Prod.fst)
              (img.addLayer digest digest.length (some baseId) freshId created)
              rest

/-- `add_conda_package_layers(image, hostpath, filter=..., records=...)`:
the per-record loop followed by one catch-all layer holding every
remaining staging-tree entry (appended with a fresh random id). -/
def addCondaPackageLayers (tree : List String)
    (metas : String → Option CondaMeta) (hostpath : String)
    (filter : TarFilter) (freshId created : String)
    (img : Image (List TarInfo)) (records : List CacheRecord) :
    Except LayerErr (Image (List TarInfo)) :=
  match packageLayersLoop tree metas hostpath filter freshId created 0 [] img records with
  | .error e => .error e
  | .ok (img2, filesInLayers) =>
    match writeTarFromPaths tree (catchAllPaths hostpath tree filesInLayers) filter with
    | .error (.fileNotFound p) => .error (.missingPath p)
    | .ok digest => .ok (img2.addLayer digest digest.length none freshId created)

/-- `add_single_conda_layer(image, hostpath, arcpath, filter)`: one
layer holding the recursive tar of the whole staging tree. -/
def addSingleCondaLayer (tree : List String) (hostpath : String)
    (arcpath : Option String) (filter : TarFilter) (freshId created : String)
    (img : Image (List TarInfo)) : Image (List TarInfo) :=
  let digest := writeTarFromPath hostpath tree arcpath true filter
  img.addLayer digest digest.length none freshId created

/-- `add_conda_layers(...)`: dispatch on the layering strategy; an
unknown strategy raises `ValueError`. -/
def addCondaLayers (tree : List String) (metas : String → Option CondaMeta)
    (hostpath : String) (arcpath : Option String) (filter : TarFilter)
    (freshId created : String) (img : Image (List TarInfo))
    (records : List CacheRecord) (layeringStrategy : String) :
    Except LayerErr (Image (List TarInfo)) :=
  if layeringStrategy == "single" then
    .ok (addSingleCondaLayer tree hostpath arcpath filter freshId created img)
  else if layeringStrategy == "layered" then
    addCondaPackageLayers tree metas hostpath filter freshId created img records
  else
    .error (.badStrategy layeringStrategy)

/-- The layering step of `build_docker_environment` (lines 773–780):
`add_conda_layers(image, tmpdir, arcpath="/",
filter=conda_file_filter(), records=records,
layering_strategy=layering_strategy)` — both strategies receive the
default conda file filter. -/
def buildDockerEnvironmentLayers (tree : List String)
    (metas : String → Option CondaMeta) (hostpath : String)
    (baseImg : Image (List TarInfo)) (records : List CacheRecord)
    (layeringStrategy : String) (freshId created : String) :
    Except LayerErr (Image (List TarInfo)) :=
  addCondaLayers tree metas hostpath (some "/")
    (some (condaFileFilter true true)) freshId created baseImg records
    layeringStrategy

/-! ## Claim C10: the conda file filter governs every appended layer -/

theorem condaFileFilter_sound (ti ti2 : TarInfo)
    (h : condaFileFilter true true ti = some ti2) :
    strEnds ".a" ti2.name = false ∧ strEnds ".js.map" ti2.name = false := by
  unfold condaFileFilter at h
  split at h
  · cases h
  · split at h
    · cases h
    · cases h
      rename_i h1 h2
      simp only [Bool.true_and] at h1 h2
      exact ⟨Bool.not_eq_true _ ▸ (Bool.of_not_eq_true h1),
        Bool.not_eq_true _ ▸ (Bool.of_not_eq_true h2)⟩

theorem mem_toList_applyFilter (f : TarInfo → Option TarInfo) (x ti : TarInfo)
    (h : ti ∈ (applyFilter (some f) x).toList) : f x = some ti := by
  cases hf : applyFilter (some f) x with
  | none => rw [hf] at h; cases h
  | some t =>
    rw [hf] at h
    have h2 : ti = t := by simpa using h
    rw [h2]
    exact hf

theorem writeTarFromPaths_filter_sound (tree : List String)
    (f : TarInfo → Option TarInfo) :
    ∀ (paths : PathMap) (tis : List TarInfo),
      writeTarFromPaths tree paths (some f) = .ok tis →
      ∀ ti ∈ tis, ∃ ti0, f ti0 = some ti := by
  intro paths
  induction paths with
  | nil =>
    intro tis h ti hti
    cases h
    cases hti
  | cons e rest ih =>
    obtain ⟨host, arc⟩ := e
    intro tis h ti hti
    rw [writeTarFromPaths] at h
    by_cases hc : tree.contains host = true
    · rw [if_pos hc] at h
      cases hrest : writeTarFromPaths tree rest (some f) with
      | error e => rw [hrest] at h; cases h
      | ok tis2 =>
        rw [hrest] at h
        cases happ : applyFilter (some f) { name := arc, size := 0 } with
        | none =>
          rw [happ] at h
          cases h
          exact ih _ hrest ti hti
        | some ti1 =>
          rw [happ] at h
          cases h
          rcases List.mem_cons.mp hti with rfl | hti2
          · exact ⟨_, happ⟩
          · exact ih _ hrest ti hti2
    · rw [if_neg hc] at h
      cases h

theorem writeTarFromPath_filter_sound (root : String) (tree : List String)
    (arcpath : Option String) (recursive : Bool)
    (f : TarInfo → Option TarInfo) (ti : TarInfo)
    (h : ti ∈ writeTarFromPath root tree arcpath recursive (some f)) :
    ∃ ti0, f ti0 = some ti := by
  unfold writeTarFromPath at h
  split at h
  · rcases List.mem_append.mp h with hroot | hwalk
    · exact ⟨_, mem_toList_applyFilter f _ ti hroot⟩
    · obtain ⟨p, _, hp⟩ := List.mem_filterMap.mp hwalk
      exact ⟨_, hp⟩
  · exact ⟨_, mem_toList_applyFilter f _ ti h⟩

theorem packageLayersLoop_filter_sound (tree : List String)
    (metas : String → Option CondaMeta) (hostpath : String)
    (f : TarInfo → Option TarInfo) (freshId created : String) :
    ∀ (records : List CacheRecord) (counter : Nat) (fil : List String)
      (img img2 : Image (List TarInfo)) (fil2 : List String),
      packageLayersLoop tree metas hostpath (some f) freshId created
        counter fil img records = .ok (img2, fil2) →
      ∀ l ∈ img2.layers, l ∈ img.layers ∨
        ∀ ti ∈ l.content, ∃ ti0, f ti0 = some ti := by
  intro records
  induction records with
  | nil =>
    intro counter fil img img2 fil2 h l hl
    cases h
    exact Or.inl hl
  | cons r rest ih =>
    intro counter fil img img2 fil2 h l hl
    rw [packageLayersLoop] at h
    by_cases hcnt : counter > 100
    · rw [if_pos hcnt] at h
      cases h
      exact Or.inl hl
    · rw [if_neg hcnt] at h
      cases hmeta : metas (condaMetaPath hostpath (getDistName r.fn)) with
      | none => simp only [hmeta] at h; cases h
      | some meta =>
        simp only [hmeta] at h
        cases hbase : baseIdOf meta with
        | none => simp only [hbase] at h; cases h
        | some baseId =>
          simp only [hbase] at h
          cases htar : writeTarFromPaths tree
              (pathsFromRecord hostpath tree meta (getDistName r.fn)) (some f) with
          | error e =>
            cases e with
            | fileNotFound p => simp only [htar] at h; cases h
          | ok digest =>
            simp only [htar] at h
            rcases ih (counter + 1) _ _ img2 fil2 h l hl with hmem | hclean
            · rcases List.mem_cons.mp hmem with rfl | hmem2
              · exact Or.inr (fun ti hti =>
                  writeTarFromPaths_filter_sound tree f _ digest htar ti hti)
              · exact Or.inl hmem2
            · exact Or.inr hclean

theorem addCondaLayers_filter_sound (tree : List String)
    (metas : String → Option CondaMeta) (hostpath : String)
    (arcpath : Option String) (f : TarInfo → Option TarInfo)
    (freshId created : String) (img : Image (List TarInfo))
    (records : List CacheRecord) (strategy : String)
    (img2 : Image (List TarInfo))
    (h : addCondaLayers tree metas hostpath arcpath (some f) freshId created
      img records strategy = .ok img2) :
    ∀ l ∈ img2.layers, l ∈ img.layers ∨
      ∀ ti ∈ l.content, ∃ ti0, f ti0 = some ti := by
  intro l hl
  unfold addCondaLayers at h
  by_cases hs1 : (strategy == "single") = true
  · rw [if_pos hs1] at h
    cases h
    rcases List.mem_cons.mp hl with rfl | hmem
    · exact Or.inr (fun ti hti =>
        writeTarFromPath_filter_sound hostpath tree arcpath true f ti hti)
    · exact Or.inl hmem
  · rw [if_neg hs1] at h
    by_cases hs2 : (strategy == "layered") = true
    · rw [if_pos hs2] at h
      unfold addCondaPackageLayers at h
      cases hloop : packageLayersLoop tree metas hostpath (some f) freshId
          created 0 [] img records with
      | error e => simp only [hloop] at h; cases h
      | ok pr =>
        obtain ⟨img3, fil⟩ := pr
        simp only [hloop] at h
        cases hcatch : writeTarFromPaths tree
            (catchAllPaths hostpath tree fil) (some f) with
        | error e =>
          cases e with
          | fileNotFound p => simp only [hcatch] at h; cases h
        | ok digest =>
          simp only [hcatch] at h
          cases h
          rcases List.mem_cons.mp hl with rfl | hmem
          · exact Or.inr (fun ti hti =>
              writeTarFromPaths_filter_sound tree f _ digest hcatch ti hti)
          · exact packageLayersLoop_filter_sound tree metas hostpath f freshId
              created records 0 [] img img3 fil hloop l hmem
    · rw [if_neg hs2] at h
      cases h

/-- **C10.** Every layer the builder appends — in both the `single` and
`layered` strategies, whose layering call receives
`filter=conda_file_filter()` — passes the default conda file filter,
which drops any tar entry whose name ends with `.a` or `.js.map` and
keeps the entry itself otherwise; consequently no entry with such a
name appears in any appended layer's tar, whatever the staging tree
holds. -/
theorem builder_appended_layers_filtered (tree : List String)
    (metas : String → Option CondaMeta) (hostpath : String)
    (baseImg : Image (List TarInfo)) (records : List CacheRecord)
    (strategy freshId created : String) (img2 : Image (List TarInfo))
    (h : buildDockerEnvironmentLayers tree metas hostpath baseImg records
      strategy freshId created = .ok img2) :
    ∀ l ∈ img2.layers, l ∈ baseImg.layers ∨
      ∀ ti ∈ l.content,
        strEnds ".a" ti.name = false ∧ strEnds ".js.map" ti.name = false := by
  intro l hl
  rcases addCondaLayers_filter_sound tree metas hostpath (some "/")
      (condaFileFilter true true) freshId created baseImg records strategy
      img2 h l hl with hmem | hclean
  · exact Or.inl hmem
  · refine Or.inr (fun ti hti => ?_)
    obtain ⟨ti0, hti0⟩ := hclean ti hti
    exact condaFileFilter_sound ti0 ti hti0

/-- Inputs for the C10 witness: one staging file, no records. -/
def imgEmptyC10 : Image (List TarInfo) := ⟨"n", "t", []⟩

def imgC10 : Image (List TarInfo) :=
  ⟨"n", "t",
    [ { id := "f", parent := none, architecture := some "amd64",
        os := "linux", created := "n", author := some "conda-docker",
        checksum := none, size := some 1,
        content := [{ name := "x.txt", size := 0 }],
        config := defaultConfig } ]⟩

/-- Witness for C10: a concrete `layered` run appends one catch-all
layer whose single entry name ends in neither `.a` nor `.js.map`. -/
theorem builder_appended_layers_filtered_witness :
    buildDockerEnvironmentLayers ["/h/x.txt"] (fun _ => none) "/h"
        imgEmptyC10 [] "layered" "f" "n" = .ok imgC10 ∧
    (imgC10.layers.get ⟨0, by decide⟩ ∈ imgEmptyC10.layers ∨
      ∀ ti ∈ (imgC10.layers.get ⟨0, by decide⟩).content,
        strEnds ".a" ti.name = false ∧ strEnds ".js.map" ti.name = false) :=
  ⟨rfl,
    builder_appended_layers_filtered ["/h/x.txt"] (fun _ => none) "/h"
      imgEmptyC10 [] "layered" "f" "n" imgC10 rfl
      (imgC10.layers.get ⟨0, by decide⟩) (by decide)⟩

/-! ## Claim C2: the per-package layer cap -/

/-- The records the per-package loop actually processes when entered
with the given counter: none once `counter > 100`, else the first
`101 - counter` (the loop breaks only when `counter > 100`, so from a
fresh counter it processes up to **101** records, not 100). -/
def processedRecords (records : List CacheRecord) (counter : Nat) :
    List CacheRecord :=
  if counter > 100 then [] else records.take (101 - counter)

theorem processedRecords_nil (counter : Nat) :
    processedRecords [] counter = [] := by
  unfold processedRecords
  split <;> simp

theorem processedRecords_cons (r : CacheRecord) (rest : List CacheRecord)
    (counter : Nat) (h : ¬ counter > 100) :
    processedRecords (r :: rest) counter =
      r :: processedRecords rest (counter + 1) := by
  unfold processedRecords
  rw [if_neg h]
  have h1 : 101 - counter = (100 - counter) + 1 := by omega
  rw [h1, List.take_succ_cons]
  by_cases h2 : counter + 1 > 100
  · have h3 : 100 - counter = 0 := by omega
    rw [if_pos h2, h3, List.take_zero]
  · have h3 : 101 - (counter + 1) = 100 - counter := by omega
    rw [if_neg h2, h3]

theorem packageLayersLoop_length (tree : List String)
    (metas : String → Option CondaMeta) (hostpath : String)
    (filter : TarFilter) (freshId created : String) :
    ∀ (records : List CacheRecord) (counter : Nat) (fil : List String)
      (img img2 : Image (List TarInfo)) (fil2 : List String),
      packageLayersLoop tree metas hostpath filter freshId created
        counter fil img records = .ok (img2, fil2) →
      img2.layers.length =
        img.layers.length + (processedRecords records counter).length := by
  intro records
  induction records with
  | nil =>
    intro counter fil img img2 fil2 h
    cases h
    rw [processedRecords_nil]
    rfl
  | cons r rest ih =>
    intro counter fil img img2 fil2 h
    rw [packageLayersLoop] at h
    by_cases hcnt : counter > 100
    · rw [if_pos hcnt] at h
      cases h
      unfold processedRecords
      rw [if_pos hcnt]
      rfl
    · rw [if_neg hcnt] at h
      cases hmeta : metas (condaMetaPath hostpath (getDistName r.fn)) with
      | none => simp only [hmeta] at h; cases h
      | some meta =>
        simp only [hmeta] at h
        cases hbase : baseIdOf meta with
        | none => simp only [hbase] at h; cases h
        | some baseId =>
          simp only [hbase] at h
          cases htar : writeTarFromPaths tree
              (pathsFromRecord hostpath tree meta (getDistName r.fn)) filter with
          | error e =>
            cases e with
            | fileNotFound p => simp only [htar] at h; cases h
          | ok digest =>
            simp only [htar] at h
            rw [ih (counter + 1) _ _ img2 fil2 h,
              processedRecords_cons r rest counter hcnt]
            simp only [Image.addLayer, List.length_cons]
            omega

/-- **C2 (amended).** A successful `layered` run appends one layer for
each of the first `min(len(records), 101)` records — the loop's
`counter > 100` break is an off-by-one against the documented
100-package cap — plus the final catch-all layer: for at least 101
records that is exactly 102 appended layers. -/
theorem addCondaPackageLayers_layer_count (tree : List String)
    (metas : String → Option CondaMeta) (hostpath : String)
    (filter : TarFilter) (freshId created : String)
    (img img2 : Image (List TarInfo)) (records : List CacheRecord)
    (h : addCondaPackageLayers tree metas hostpath filter freshId created
      img records = .ok img2) :
    img2.layers.length = img.layers.length + min records.length 101 + 1 := by
  unfold addCondaPackageLayers at h
  cases hloop : packageLayersLoop tree metas hostpath filter freshId created
      0 [] img records with
  | error e => simp only [hloop] at h; cases h
  | ok pr =>
    obtain ⟨img3, fil⟩ := pr
    simp only [hloop] at h
    cases hcatch : writeTarFromPaths tree
        (catchAllPaths hostpath tree fil) filter with
    | error e =>
      cases e with
      | fileNotFound p => simp only [hcatch] at h; cases h
    | ok digest =>
      simp only [hcatch] at h
      cases h
      have hlen := packageLayersLoop_length tree metas hostpath filter freshId
        created records 0 [] img img3 fil hloop
      have hproc : (processedRecords records 0).length = min records.length 101 := by
        unfold processedRecords
        rw [if_neg (by omega), List.length_take]
        exact Nat.min_comm 101 records.length
      simp only [Image.addLayer, List.length_cons]
      omega

/-- Inputs for the C2 counterexample: 105 identical records over a
minimal consistent staging tree. -/
def imgEmptyC2 : Image (List TarInfo) := ⟨"n", "t", []⟩

def recC2 : CacheRecord := ⟨"u", "m", "p.conda", "c", "", ""⟩

def treeC2 : List String :=
  ["/h/opt/conda/pkgs/p", "/h/opt/conda/conda-meta/p.json"]

def metasC2 : String → Option CondaMeta :=
  fun p =>
    if p == "/h/opt/conda/conda-meta/p.json" then some ⟨[], none, some "m"⟩
    else none

/-- **C2 (counterexample).** Given 105 records, the `layered` strategy
emits 102 appended layers on an empty base image — 101 per-package
layers (the loop breaks only when `counter > 100`) plus the catch-all —
contradicting the claimed bound of at most 101 (100 per-package plus
one catch-all). -/
theorem layered_cap_counterexample :
    (addCondaPackageLayers treeC2 metasC2 "/h" (some (condaFileFilter true true))
        "f" "n" imgEmptyC2 (List.replicate 105 recC2)).map
      (fun img => img.layers.length) = .ok 102 ∧
    ¬ (102 ≤ 101) := by
  exact ⟨rfl, by decide⟩

/-- The image produced by the two-record witness run for C2. -/
def imgC2w : Image (List TarInfo) :=
  (addCondaPackageLayers treeC2 metasC2 "/h" (some (condaFileFilter true true))
    "f" "n" imgEmptyC2 (List.replicate 2 recC2)).toOption.getD imgEmptyC2

/-- Witness for C2 at a two-record run: 2 per-package layers plus the
catch-all. -/
theorem addCondaPackageLayers_layer_count_witness :
    addCondaPackageLayers treeC2 metasC2 "/h" (some (condaFileFilter true true))
        "f" "n" imgEmptyC2 (List.replicate 2 recC2) = .ok imgC2w ∧
    imgC2w.layers.length =
      imgEmptyC2.layers.length + min (List.replicate 2 recC2).length 101 + 1 :=
  ⟨rfl,
    addCondaPackageLayers_layer_count treeC2 metasC2 "/h"
      (some (condaFileFilter true true)) "f" "n" imgEmptyC2 imgC2w
      (List.replicate 2 recC2) rfl⟩

/-! ## Claim C5: coverage and disjointness of the layered path maps -/

/-- The host paths a record's per-package layer owns (the keys of its
`_paths_from_record` map); empty when its `conda-meta` JSON is absent
(in which case the loop fails instead). -/
def recordPathKeys (tree : List String) (metas : String → Option CondaMeta)
    (hostpath : String) (r : CacheRecord) : List String :=
  match metas (condaMetaPath hostpath (getDistName r.fn)) with
  | none => []
  | some meta =>
    (pathsFromRecord hostpath tree meta (getDistName r.fn)).map Prod.fst

theorem mem_catchAllPaths_keys (hostpath : String) (tree fil : List String)
    (p : String) (hp : p ∈ tree) (hnot : p ∉ fil) :
    p ∈ (catchAllPaths hostpath tree fil).map Prod.fst := by
  unfold catchAllPaths
  rw [List.map_map]
  refine List.mem_map.mpr ⟨p, List.mem_filter.mpr ⟨hp, ?_⟩, rfl⟩
  simp [hnot]

theorem catchAllPaths_keys_disjoint (hostpath : String) (tree fil : List String)
    (p : String) (hp : p ∈ (catchAllPaths hostpath tree fil).map Prod.fst) :
    p ∉ fil := by
  unfold catchAllPaths at hp
  rw [List.map_map] at hp
  obtain ⟨q, hq, rfl⟩ := List.mem_map.mp hp
  have := (List.mem_filter.mp hq).2
  simpa using this

theorem writeTarFromPaths_none_names (tree : List String) :
    ∀ (paths : PathMap) (tis : List TarInfo),
      writeTarFromPaths tree paths none = .ok tis →
      tis.map TarInfo.name = paths.map Prod.snd := by
  intro paths
  induction paths with
  | nil =>
    intro tis h
    cases h
    rfl
  | cons e rest ih =>
    obtain ⟨host, arc⟩ := e
    intro tis h
    rw [writeTarFromPaths] at h
    by_cases hc : tree.contains host = true
    · rw [if_pos hc] at h
      cases hrest : writeTarFromPaths tree rest none with
      | error e2 => rw [hrest] at h; cases h
      | ok tis2 =>
        rw [hrest] at h
        cases h
        rw [List.map_cons, List.map_cons, ih _ hrest]
    · rw [if_neg hc] at h
      cases h

theorem packageLayersLoop_filesInLayers (tree : List String)
    (metas : String → Option CondaMeta) (hostpath : String)
    (filter : TarFilter) (freshId created : String) :
    ∀ (records : List CacheRecord) (counter : Nat) (fil : List String)
      (img img2 : Image (List TarInfo)) (fil2 : List String),
      packageLayersLoop tree metas hostpath filter freshId created
        counter fil img records = .ok (img2, fil2) →
      fil2 = fil ++
        ((processedRecords records counter).map
          (recordPathKeys tree metas hostpath)).flatten := by
  intro records
  induction records with
  | nil =>
    intro counter fil img img2 fil2 h
    cases h
    rw [processedRecords_nil]
    simp
  | cons r rest ih =>
    intro counter fil img img2 fil2 h
    rw [packageLayersLoop] at h
    by_cases hcnt : counter > 100
    · rw [if_pos hcnt] at h
      cases h
      unfold processedRecords
      rw [if_pos hcnt]
      simp
    · rw [if_neg hcnt] at h
      cases hmeta : metas (condaMetaPath hostpath (getDistName r.fn)) with
      | none => simp only [hmeta] at h; cases h
      | some meta =>
        simp only [hmeta] at h
        cases hbase : baseIdOf meta with
        | none => simp only [hbase] at h; cases h
        | some baseId =>
          simp only [hbase] at h
          cases htar : writeTarFromPaths tree
              (pathsFromRecord hostpath tree meta (getDistName r.fn)) filter with
          | error e =>
            cases e with
            | fileNotFound p => simp only [htar] at h; cases h
          | ok digest =>
            simp only [htar] at h
            rw [ih (counter + 1) _ _ img2 fil2 h,
              processedRecords_cons r rest counter hcnt]
            have hkeys : recordPathKeys tree metas hostpath r =
                (pathsFromRecord hostpath tree meta (getDistName r.fn)).map
                  Prod.fst := by
              unfold recordPathKeys
              rw [hmeta]
            rw [List.map_cons, List.flatten_cons, hkeys, List.append_assoc]

/-- **C5 (amended).** In a successful `layered` run: (a) every staging
tree entry that is not owned by a per-package layer is a key of the
catch-all map, so per-package keys plus catch-all keys cover the whole
tree; (b) the catch-all layer is disjoint from every per-package
layer — its keys avoid all of `files_in_layers`, which (d) is exactly
the concatenation of the key sets of the processed records' path maps;
and (c) with no filter, a layer built from a path map contains exactly
the map's archive names.  The claim's further assertion that **no**
archive path appears in two different appended layers fails: two
per-package maps may share ancestor-directory entries (see the
counterexample). -/
theorem layered_coverage_and_catchall_disjoint :
    (∀ (hostpath : String) (tree fil : List String) (p : String),
        p ∈ tree → p ∉ fil →
        p ∈ (catchAllPaths hostpath tree fil).map Prod.fst) ∧
    (∀ (hostpath : String) (tree fil : List String) (p : String),
        p ∈ (catchAllPaths hostpath tree fil).map Prod.fst → p ∉ fil) ∧
    (∀ (tree : List String) (paths : PathMap) (tis : List TarInfo),
        writeTarFromPaths tree paths none = .ok tis →
        tis.map TarInfo.name = paths.map Prod.snd) ∧
    (∀ (tree : List String) (metas : String → Option CondaMeta)
        (hostpath : String) (filter : TarFilter) (freshId created : String)
        (records : List CacheRecord) (counter : Nat) (fil : List String)
        (img img2 : Image (List TarInfo)) (fil2 : List String),
        packageLayersLoop tree metas hostpath filter freshId created
          counter fil img records = .ok (img2, fil2) →
        fil2 = fil ++
          ((processedRecords records counter).map
            (recordPathKeys tree metas hostpath)).flatten) := by
  refine ⟨mem_catchAllPaths_keys, catchAllPaths_keys_disjoint, ?_, ?_⟩
  · intro tree paths tis h
    exact writeTarFromPaths_none_names tree paths tis h
  · intro tree metas hostpath filter freshId created records counter fil
      img img2 fil2 h
    exact packageLayersLoop_filesInLayers tree metas hostpath filter freshId
      created records counter fil img img2 fil2 h

/-! ### C5 counterexample: a shared ancestor directory -/

def imgEmptyC5 : Image (List TarInfo) := ⟨"n", "t", []⟩

def treeC5 : List String :=
  [ "/h/opt", "/h/opt/conda", "/h/opt/conda/bin", "/h/opt/conda/bin/a",
    "/h/opt/conda/bin/b", "/h/opt/conda/pkgs", "/h/opt/conda/pkgs/p1",
    "/h/opt/conda/pkgs/p2", "/h/opt/conda/conda-meta",
    "/h/opt/conda/conda-meta/p1.json", "/h/opt/conda/conda-meta/p2.json" ]

def metasC5 : String → Option CondaMeta :=
  fun p =>
    if p == "/h/opt/conda/conda-meta/p1.json" then
      some ⟨["bin/a"], none, some "m1"⟩
    else if p == "/h/opt/conda/conda-meta/p2.json" then
      some ⟨["bin/b"], none, some "m2"⟩
    else none

def recsC5 : List CacheRecord :=
  [ ⟨"u1", "m1", "p1.conda", "c", "", ""⟩,
    ⟨"u2", "m2", "p2.conda", "c", "", ""⟩ ]

/-- The archive-name lists of the three appended layers (head-first:
catch-all, then package 2, then package 1) in the C5 counterexample
run. -/
def namesCatchC5 : List String :=
  ["opt", "/opt/conda", "/opt/conda/pkgs", "/opt/conda/conda-meta"]

def namesP2C5 : List String :=
  ["/opt/conda/bin/b", "/opt/conda/bin", "/opt/conda/pkgs/p2",
   "/opt/conda/conda-meta/p2.json"]

def namesP1C5 : List String :=
  ["/opt/conda/bin/a", "/opt/conda/bin", "/opt/conda/pkgs/p1",
   "/opt/conda/conda-meta/p1.json"]

/-- **C5 (counterexample).** Two packages whose files share the parent
directory `bin` each own the archive path `/opt/conda/bin`, so that
path appears in **two different** per-package layers, refuting the
claim that no archive path appears in two different appended layers. -/
theorem layered_paths_not_disjoint :
    (addCondaPackageLayers treeC5 metasC5 "/h" none "f" "n" imgEmptyC5
        recsC5).map
      (fun img => img.layers.map (fun l => l.content.map TarInfo.name)) =
      .ok [namesCatchC5, namesP2C5, namesP1C5] ∧
    "/opt/conda/bin" ∈ namesP1C5 ∧ "/opt/conda/bin" ∈ namesP2C5 ∧
    namesP1C5 ≠ namesP2C5 := by
  exact ⟨rfl, by decide, by decide, by decide⟩

/-- Witness for C5 at concrete inputs, instantiating each quantified
conjunct of the amended claim. -/
theorem layered_coverage_and_catchall_disjoint_witness :
    ("/h/opt" ∈ (catchAllPaths "/h" treeC5 []).map Prod.fst) ∧
    ("/h/opt" ∉ ([] : List String)) ∧
    ((writeTarFromPaths treeC5 [("/h/opt", "/opt")] none = .ok
        [{ name := "/opt", size := 0 }]) ∧
      ([({ name := "/opt", size := 0 } : TarInfo)].map TarInfo.name =
        [("/h/opt", "/opt")].map Prod.snd)) ∧
    (packageLayersLoop treeC2 metasC2 "/h" none "f" "n" 0 [] imgEmptyC2 [] =
        .ok (imgEmptyC2, []) ∧
      ([] : List String) = [] ++
        ((processedRecords [] 0).map (recordPathKeys treeC2 metasC2 "/h")).flatten) := by
  refine ⟨?_, by decide, ⟨rfl, ?_⟩, rfl, ?_⟩
  · exact layered_coverage_and_catchall_disjoint.1 "/h" treeC5 [] "/h/opt"
      (by decide) (by decide)
  · exact layered_coverage_and_catchall_disjoint.2.2.1 treeC5
      [("/h/opt", "/opt")] [{ name := "/opt", size := 0 }] rfl
  · exact layered_coverage_and_catchall_disjoint.2.2.2 treeC2 metasC2 "/h"
      none "f" "n" [] 0 [] imgEmptyC2 imgEmptyC2 [] rfl

end CondaDocker
